import Mathlib

/-!
Verification of the PAI validation-loop component
(`src/scripts/validation/validation-loop.py`).

The Python module is shallowly embedded below.  Side effects are made
explicit:

* `task_func` / `validation_func` — the loop calls `task_func()` and then
  `validation_func(task_result)` once per attempt; the combined observable
  effect of the pair at attempt `i` (1-based) is modelled as a function
  `b : ℕ → AttemptOutcome`, where `AttemptOutcome.ok vr` means validation
  returned the `ValidationResult` `vr`, and `AttemptOutcome.exn msg` means
  one of the two raised an exception with message `msg`.
* wall-clock durations (`time.time()` differences) are modelled as an
  input `d : ℕ → ℚ` giving the measured duration of attempt `i`.
* the mutable `ValidationLoop` object state (`self.history`,
  `self.gaming_score`) is threaded explicitly as a `LoopState`; the
  console warning printed by `_detect_gaming_in_retry` when the gaming
  score exceeds 0.5, and the number of `task_func()` invocations, are
  recorded in `LoopState` as well so that claims about them can be stated.
-/

/-- `ValidationProtocol` enum (validation-loop.py lines 33-40). -/
inductive ValidationProtocol where
  | NLNH
  | DGTS
  | ZERO_TOLERANCE
  | DOC_TDD
  | ANTIHALL
  | E2E
deriving DecidableEq, Repr

/-- The `.value` string of each enum member. -/
def ValidationProtocol.value : ValidationProtocol → String
  | .NLNH => "NLNH"
  | .DGTS => "DGTS"
  | .ZERO_TOLERANCE => "ZeroTolerance"
  | .DOC_TDD => "DocumentationDrivenTDD"
  | .ANTIHALL => "AntiHall"
  | .E2E => "E2E"

/-- `ValidationResult` dataclass (lines 43-52).  `duration` is a rational
instead of a float; the loop never computes with durations beyond summing
and rounding them. -/
structure ValidationResult where
  passed : Bool
  protocol : Option ValidationProtocol
  message : String
  errors : List String
  suggestions : List String
  attempt : ℕ
  duration : ℚ
deriving DecidableEq, Repr

/-- `ValidationLoopConfig` dataclass (lines 55-62).  `log_file` is never
read by the loop and is omitted. -/
structure ValidationLoopConfig where
  max_retries : ℕ := 3
  enable_gaming_detection : Bool := true
  enable_intelligent_fixes : Bool := true
  verbose : Bool := false
deriving Repr

/-- The mutable state of a `ValidationLoop` object.  `history` and
`gaming_score` are the fields set in `__init__` (lines 72-75).
`warnings` records the attempt numbers at which the HIGH GAMING SCORE
console warning (lines 337-339) was printed, and `taskCalls` counts the
invocations of `task_func` (line 106); both model observable effects. -/
structure LoopState where
  history : List ValidationResult := []
  gaming_score : ℚ := 0
  warnings : List ℕ := []
  taskCalls : ℕ := 0
deriving Repr

/-- `ValidationLoop.__init__` with the default config: empty history,
gaming score 0. -/
def initLoop : LoopState := {}

/-- Observable outcome of one attempt: either `validation_func` returned a
`ValidationResult`, or the task/validation pair raised an exception. -/
inductive AttemptOutcome where
  | ok (vr : ValidationResult)
  | exn (msg : String)

/-- Whether an attempt outcome passes validation (an exception never
does). -/
def passes : AttemptOutcome → Bool
  | .ok vr => vr.passed
  | .exn _ => false

/-- Whether `pat` matches at the front of `hay`. -/
def matchHere : List Char → List Char → Bool
  | [], _ => true
  | _ :: _, [] => false
  | p :: ps, h :: hs => p == h && matchHere ps hs

/-- Whether `pat` occurs as a contiguous subsequence of the second list. -/
def occursIn (pat : List Char) : List Char → Bool
  | [] => pat.isEmpty
  | h :: t => matchHere pat (h :: t) || occursIn pat t

/-- The character list of `" ".join(errs).lower()`: the joined error text
lowercased character by character (Python's `str.lower`, ASCII-relevant
here, lowercases each character independently). -/
def lowerJoin (errs : List String) : List Char :=
  (String.intercalate " " errs).toList.map Char.toLower

/-- Python's `pat in errors_str` substring test on the lowered error
text. -/
def strContains (hay : List Char) (pat : String) : Bool :=
  occursIn pat.toList hay

/-- Result dictionary of `ValidationLoop._analyze_failure`. -/
structure FailureAnalysis where
  protocol : String
  error_count : ℕ
  primary_cause : String
  severity : String
deriving DecidableEq, Repr

/-- `ValidationLoop._analyze_failure` (lines 195-241). -/
def analyzeFailure (result : ValidationResult) : FailureAnalysis :=
  let base : FailureAnalysis :=
    { protocol := match result.protocol with
        | some p => p.value
        | none => "Unknown"
      error_count := result.errors.length
      primary_cause := "Unknown"
      severity := "Medium" }
  match result.protocol with
  | none => base
  | some .NLNH =>
      { base with primary_cause := "Truth/confidence violation", severity := "High" }
  | some .DGTS =>
      { base with primary_cause := "Gaming pattern detected", severity := "Critical" }
  | some .ZERO_TOLERANCE =>
      let errors_str := lowerJoin result.errors
      if strContains errors_str "console.log" then
        { base with primary_cause := "Console.log statements", severity := "High" }
      else if strContains errors_str "typescript" || strContains errors_str "type error" then
        { base with primary_cause := "TypeScript errors", severity := "High" }
      else if strContains errors_str "eslint" then
        { base with primary_cause := "ESLint violations", severity := "Medium" }
      else base
  | some .DOC_TDD =>
      { base with primary_cause := "Tests don\x27t match documentation", severity := "High" }
  | some .ANTIHALL =>
      { base with primary_cause := "Code doesn\x27t exist in codebase", severity := "Critical" }
  | some .E2E =>
      { base with primary_cause := "End-to-end test failures", severity := "High" }

/-- `ValidationLoop._generate_fix_suggestions` (lines 243-318).  The
`analysis` argument is accepted but, exactly as in the source, never
used. -/
def generateFixSuggestions (result : ValidationResult) (_analysis : FailureAnalysis) :
    List String :=
  match result.protocol with
  | none => ["Run full validation to identify specific protocol failure"]
  | some .NLNH =>
      ["Increase confidence score by citing sources",
       "Replace assumptions with verified facts",
       "Add explicit \x27I don\x27t know\x27 statements where uncertain",
       "Remove superlatives and overconfident language"]
  | some .DGTS =>
      ["Remove mock data returns - implement real functionality",
       "Replace \x27assert True\x27 with meaningful assertions",
       "Uncomment validation rules that were disabled",
       "Remove \x27if False\x27 disabled code blocks",
       "Implement actual logic instead of TODO/pass stubs"]
  | some .ZERO_TOLERANCE =>
      let errors_str := lowerJoin result.errors
      (if strContains errors_str "console.log" then
        ["Replace console.log with proper logging: import \x7b log \x7d from \x27@/lib/logger\x27",
         "Remove all console.* statements (console.log, console.error, console.warn)"]
       else []) ++
      (if strContains errors_str "typescript" || strContains errors_str "type error" then
        ["Fix TypeScript type errors - run: npx tsc --noEmit",
         "Add explicit types for all parameters and return values",
         "Remove \x27any\x27 types and use proper typing"]
       else []) ++
      (if strContains errors_str "eslint" then
        ["Run ESLint auto-fix: npx eslint . --fix",
         "Fix remaining ESLint errors manually"]
       else []) ++
      (if strContains errors_str "catch" || strContains errors_str "error" then
        ["Add error parameter to catch blocks: catch (error: unknown)",
         "Remove void error anti-patterns"]
       else [])
  | some .DOC_TDD =>
      ["Create tests from PRD/PRP/ADR documentation first",
       "Map each requirement to a testable acceptance criterion",
       "Implement code to pass documentation-derived tests",
       "Verify test coverage matches all documented requirements"]
  | some .ANTIHALL =>
      ["Verify the code/method exists in codebase before referencing",
       "Run: npm run antihall:check \x27<code snippet>\x27",
       "Use antihall:find to discover correct naming",
       "Check actual implementation, don\x27t assume it exists"]
  | some .E2E =>
      ["Review Playwright test failures and screenshots",
       "Fix UI bugs identified in E2E tests",
       "Update selectors if DOM structure changed",
       "Run tests in headed mode for debugging: npx playwright test --headed"]

/-- `ValidationLoop._detect_gaming_in_retry` (lines 320-339).  Returns the
updated gaming score together with whether the HIGH GAMING SCORE warning
(threshold strictly above 0.5) was printed by this call. -/
def detectGamingInRetry (history : List ValidationResult) (gaming_score : ℚ)
    (result : ValidationResult) : ℚ × Bool :=
  let score :=
    match history.getLast? with
    | none => gaming_score
    | some prev =>
        let s1 := if prev.errors = result.errors then gaming_score + 0.2 else gaming_score
        if prev.protocol ≠ result.protocol then s1 + 0.1 else s1
  (score, decide ((0.5 : ℚ) < score))

/-- The result recorded (`self.history.append`) and returned for a passing
attempt (lines 117-128). -/
def passRecord (vr : ValidationResult) (i : ℕ) (dur : ℚ) : ValidationResult :=
  { passed := true
    protocol := vr.protocol
    message := "Validation passed on attempt " ++ toString i
    errors := []
    suggestions := []
    attempt := i
    duration := dur }

/-- The result recorded and (on the last attempt) returned for a failing
attempt (lines 152-162). -/
def failRecord (vr : ValidationResult) (i : ℕ) (dur : ℚ) : ValidationResult :=
  { passed := false
    protocol := vr.protocol
    message := vr.message
    errors := vr.errors
    suggestions := generateFixSuggestions vr (analyzeFailure vr)
    attempt := i
    duration := dur }

/-- The result recorded and (on the last attempt) returned when the
task/validation pair raises an exception (lines 173-190). -/
def exnRecord (msg : String) (i : ℕ) (dur : ℚ) : ValidationResult :=
  { passed := false
    protocol := none
    message := "Exception during execution: " ++ msg
    errors := [msg]
    suggestions := ["Check logs for detailed error trace", "Verify task function is correct"]
    attempt := i
    duration := dur }

/-- One iteration of the `for attempt in range(1, max_retries + 1)` body
(lines 98-190), processing attempt `i` on state `s`: runs the task and
validation, on a validation failure runs `_analyze_failure`, then (when
`i > 1` and gaming detection is enabled) `_detect_gaming_in_retry`, then
`_generate_fix_suggestions`, and appends the recorded result to the
history.  Returns the recorded result and the new state. -/
def stepAttempt (cfg : ValidationLoopConfig) (b : ℕ → AttemptOutcome) (d : ℕ → ℚ)
    (i : ℕ) (s : LoopState) : ValidationResult × LoopState :=
  match b i with
  | .ok vr =>
      if vr.passed then
        (passRecord vr i (d i),
         { history := s.history ++ [passRecord vr i (d i)]
           gaming_score := s.gaming_score
           warnings := s.warnings
           taskCalls := s.taskCalls + 1 })
      else
        let sw :=
          if 1 < i ∧ cfg.enable_gaming_detection = true then
            detectGamingInRetry s.history s.gaming_score vr
          else (s.gaming_score, false)
        (failRecord vr i (d i),
         { history := s.history ++ [failRecord vr i (d i)]
           gaming_score := sw.1
           warnings := if sw.2 then s.warnings ++ [i] else s.warnings
           taskCalls := s.taskCalls + 1 })
  | .exn msg =>
      (exnRecord msg i (d i),
       { history := s.history ++ [exnRecord msg i (d i)]
         gaming_score := s.gaming_score
         warnings := s.warnings
         taskCalls := s.taskCalls + 1 })

/-- The retry loop of `ValidationLoop.execute` (lines 98-193), starting at
attempt `i` with `fuel` attempts remaining.  After each attempt the loop
returns when the attempt passed (line 128) or when `max_retries ≤ i`
(lines 171 and 189-190); otherwise it moves on to attempt `i + 1`.  The
`fuel = 0` case models the unreachable `return self.history[-1]` at line
193 (reached only when `max_retries = 0`). -/
def executeAux (cfg : ValidationLoopConfig) (b : ℕ → AttemptOutcome) (d : ℕ → ℚ) :
    ℕ → ℕ → LoopState → ValidationResult × LoopState
  | 0, _, s => (s.history.getLastD (exnRecord "" 0 0), s)
  | fuel + 1, i, s =>
      let rs := stepAttempt cfg b d i s
      if rs.1.passed = true ∨ cfg.max_retries ≤ i then rs
      else executeAux cfg b d fuel (i + 1) rs.2

/-- `ValidationLoop.execute` (lines 77-193): runs attempts `1`, `2`, … up
to `cfg.max_retries`, returning the final `ValidationResult` and the
updated object state. -/
def execute (cfg : ValidationLoopConfig) (b : ℕ → AttemptOutcome) (d : ℕ → ℚ)
    (s : LoopState) : ValidationResult × LoopState :=
  executeAux cfg b d cfg.max_retries 1 s

/-- The result recorded in the history for attempt `i`; it depends only on
the attempt's outcome and duration used at that attempt. -/
def recordAt (b : ℕ → AttemptOutcome) (d : ℕ → ℚ) (i : ℕ) : ValidationResult :=
  match b i with
  | .ok vr => if vr.passed then passRecord vr i (d i) else failRecord vr i (d i)
  | .exn msg => exnRecord msg i (d i)

/-- The index at which the retry loop stops when entered at attempt `i`
with `fuel` attempts remaining: the first attempt from `i` on that passes
or reaches `max_retries`. -/
def stopFrom (cfg : ValidationLoopConfig) (b : ℕ → AttemptOutcome) :
    ℕ → ℕ → ℕ
  | 0, i => i
  | fuel + 1, i =>
      if passes (b i) = true ∨ cfg.max_retries ≤ i then i
      else stopFrom cfg b fuel (i + 1)

/-- The 1-based index of the last attempt `execute` processes. -/
def stopIndex (cfg : ValidationLoopConfig) (b : ℕ → AttemptOutcome) : ℕ :=
  stopFrom cfg b cfg.max_retries 1

/-- The amount one call of `_detect_gaming_in_retry` adds to the gaming
score: 0.2 when the current errors equal the previous recorded attempt's
errors, plus 0.1 when the protocol tag changed. -/
def gamingDelta (prev r : ValidationResult) : ℚ :=
  (if prev.errors = r.errors then 0.2 else 0) +
  (if prev.protocol ≠ r.protocol then 0.1 else 0)

/-- The amount `_detect_gaming_in_retry` adds to the gaming score while
processing attempt `i` of a run that starts with attempt 1 (so that for
`i ≥ 2` the immediately preceding recorded attempt is `recordAt b d
(i - 1)`); attempts that pass, raise an exception, or are the first of the
run add nothing, and nothing is added when gaming detection is disabled. -/
def deltaAt (cfg : ValidationLoopConfig) (b : ℕ → AttemptOutcome) (d : ℕ → ℚ)
    (i : ℕ) : ℚ :=
  if 2 ≤ i ∧ cfg.enable_gaming_detection = true then
    match b i with
    | .ok vr =>
        if vr.passed then 0
        else gamingDelta (recordAt b d (i - 1)) vr
    | .exn _ => 0
  else 0

/-- The gaming score after the run has processed attempts `1 … n`,
starting from score `g0`. -/
def scoreUpTo (cfg : ValidationLoopConfig) (b : ℕ → AttemptOutcome) (d : ℕ → ℚ)
    (g0 : ℚ) (n : ℕ) : ℚ :=
  g0 + ((List.range' 1 n).map (deltaAt cfg b d)).sum

/-- Whether `_detect_gaming_in_retry` is invoked while processing attempt
`i`: only on a validation failure at a retry (`i ≥ 2`) with gaming
detection enabled (lines 137-138). -/
def detectionRuns (cfg : ValidationLoopConfig) (b : ℕ → AttemptOutcome) (i : ℕ) :
    Bool :=
  decide (2 ≤ i) && cfg.enable_gaming_detection &&
    (match b i with
     | .ok vr => !vr.passed
     | .exn _ => false)

/-- Whether the HIGH GAMING SCORE warning is printed while processing
attempt `i` of a run that starts with attempt 1 from score `g0`: gaming
detection must run, and the score after its update must exceed 0.5. -/
def warnAt (cfg : ValidationLoopConfig) (b : ℕ → AttemptOutcome) (d : ℕ → ℚ)
    (g0 : ℚ) (i : ℕ) : Bool :=
  detectionRuns cfg b i && decide ((0.5 : ℚ) < scoreUpTo cfg b d g0 i)

/-- Python's `round(q, 2)`: round to two decimal places (the tie-breaking
rule is immaterial to everything proved here). -/
def round2 (q : ℚ) : ℚ :=
  ((round (q * 100) : ℤ) : ℚ) / 100

/-- Dictionary returned by `ValidationLoop.get_summary`.  The
`protocols_failed` dictionary (keyed by `protocol.value` strings, absent
keys meaning zero) is modelled as a total count function on protocols. -/
structure LoopSummary where
  total_attempts : ℕ
  passed : ℕ
  failed : ℕ
  total_duration : ℚ
  gaming_score : ℚ
  protocols_failed : ValidationProtocol → ℕ
  final_status : String

/-- `ValidationLoop.get_summary` (lines 341-363). -/
def getSummary (s : LoopState) : LoopSummary :=
  let total_attempts := s.history.length
  let passedCount := (s.history.filter (fun r => r.passed)).length
  { total_attempts := total_attempts
    passed := passedCount
    failed := total_attempts - passedCount
    total_duration := round2 ((s.history.map (fun r => r.duration)).sum)
    gaming_score := round2 s.gaming_score
    protocols_failed := fun p =>
      (s.history.filter (fun r => !r.passed && decide (r.protocol = some p))).length
    final_status :=
      if (s.history.getLast?.map (fun r => r.passed)).getD false then "PASSED" else "FAILED" }

/-- Fixture: a failing validation output with the given protocol, errors
and message. -/
def failingVR (p : Option ValidationProtocol) (errs : List String) (msg : String) :
    ValidationResult :=
  { passed := false
    protocol := p
    message := msg
    errors := errs
    suggestions := []
    attempt := 0
    duration := 0 }

/-- Fixture: a passing validation output. -/
def passingVR : ValidationResult :=
  { passed := true
    protocol := some .NLNH
    message := "ok"
    errors := []
    suggestions := []
    attempt := 0
    duration := 0 }

/-- Fixture: every attempt yields the same validation output. -/
def alwaysOutcome (vr : ValidationResult) : ℕ → AttemptOutcome :=
  fun _ => .ok vr

/-- Fixture: every attempt raises the same exception. -/
def allExn : ℕ → AttemptOutcome :=
  fun _ => .exn "boom"

/-- Fixture: all durations zero. -/
def zeroDur : ℕ → ℚ :=
  fun _ => 0

/-- Fixture: a configuration with the given `max_retries` and all other
fields at their defaults. -/
def cfgR (r : ℕ) : ValidationLoopConfig :=
  { max_retries := r }

/-- Fixture for the first-pass claim: attempt 1 fails, attempt 2 passes. -/
def passAtTwo : ℕ → AttemptOutcome :=
  fun i => if i = 1 then .ok (failingVR (some .NLNH) ["e"] "f") else .ok passingVR

/-- Fixture: the recorded first attempt used in the gaming-detection
witness. -/
def prevRec : ValidationResult :=
  failRecord (failingVR (some .NLNH) ["e"] "f") 1 0

/-- Fixture: a loop state holding one recorded failing attempt. -/
def stateW2 : LoopState :=
  { history := [prevRec], gaming_score := 0, warnings := [], taskCalls := 1 }

/-- Fixture: a `ZeroTolerance` failure whose error text contains none of
the keywords `_generate_fix_suggestions` looks for. -/
def ztVR : ValidationResult :=
  failingVR (some .ZERO_TOLERANCE) ["bad output"] "zt"

/-- Fixture: `NLNH` failure with error list `["A"]`. -/
def vrA : ValidationResult :=
  failingVR (some .NLNH) ["A"] "a"

/-- Fixture: `NLNH` failure with error list `["B"]`. -/
def vrB : ValidationResult :=
  failingVR (some .NLNH) ["B"] "b"

/-- Fixture for the cross-call-comparison counterexample: in the second
`execute` call, attempt 1 produces errors `["B"]` and every later attempt
reproduces the first call's errors `["A"]`. -/
def secondCallB : ℕ → AttemptOutcome :=
  fun i => if i = 1 then .ok vrB else .ok vrA

/-- Fixture: a loop state whose single recorded attempt lasted 0.001
seconds. -/
def smallDurState : LoopState :=
  { history := [{ passed := false
                  protocol := none
                  message := ""
                  errors := []
                  suggestions := []
                  attempt := 1
                  duration := 1 / 1000 }]
    gaming_score := 0
    warnings := []
    taskCalls := 1 }

theorem range1_map_concat {α : Type} (f : ℕ → α) (k : ℕ) :
    (List.range' 1 (k + 1)).map f = (List.range' 1 k).map f ++ [f (k + 1)] := by
  rw [List.range'_1_concat]
  simp [Nat.add_comm 1 k]

theorem range1_filter_concat (p : ℕ → Bool) (k : ℕ) :
    (List.range' 1 (k + 1)).filter p =
      (List.range' 1 k).filter p ++ (if p (k + 1) then [k + 1] else []) := by
  rw [List.range'_1_concat]
  rw [List.filter_append]
  rw [Nat.add_comm 1 k]
  cases hpk : p (k + 1) <;> simp [List.filter, hpk]

theorem scoreUpTo_zero (cfg : ValidationLoopConfig) (b : ℕ → AttemptOutcome)
    (d : ℕ → ℚ) (g0 : ℚ) : scoreUpTo cfg b d g0 0 = g0 := by
  simp [scoreUpTo]

theorem scoreUpTo_succ (cfg : ValidationLoopConfig) (b : ℕ → AttemptOutcome)
    (d : ℕ → ℚ) (g0 : ℚ) (k : ℕ) :
    scoreUpTo cfg b d g0 (k + 1) = scoreUpTo cfg b d g0 k + deltaAt cfg b d (k + 1) := by
  unfold scoreUpTo
  rw [range1_map_concat]
  simp [add_assoc]

theorem recordAt_passed (b : ℕ → AttemptOutcome) (d : ℕ → ℚ) (i : ℕ) :
    (recordAt b d i).passed = passes (b i) := by
  cases hb : b i with
  | ok vr =>
      by_cases hp : vr.passed = true <;>
        simp [recordAt, passes, hb, hp, passRecord, failRecord]
  | exn msg => simp [recordAt, passes, hb, exnRecord]

theorem recordAt_attempt (b : ℕ → AttemptOutcome) (d : ℕ → ℚ) (i : ℕ) :
    (recordAt b d i).attempt = i := by
  cases hb : b i with
  | ok vr =>
      by_cases hp : vr.passed = true <;>
        simp [recordAt, hb, hp, passRecord, failRecord]
  | exn msg => simp [recordAt, hb, exnRecord]

theorem detectGamingInRetry_last (l : List ValidationResult) (g : ℚ)
    (r prev : ValidationResult) (h : l.getLast? = some prev) :
    detectGamingInRetry l g r =
      (g + gamingDelta prev r, decide ((0.5 : ℚ) < g + gamingDelta prev r)) := by
  simp only [detectGamingInRetry, h, gamingDelta]
  by_cases h1 : prev.errors = r.errors <;> by_cases h2 : prev.protocol ≠ r.protocol <;>
    simp [h1, h2, add_assoc]

/-- Processing attempt `k + 1` on a state that holds the records of
attempts `1 … k` of the current run (on top of an arbitrary earlier
history `h0`) appends the record of attempt `k + 1`, adds
`deltaAt (k + 1)` to the gaming score, and emits the warning exactly when
`warnAt (k + 1)`. -/
theorem stepAttempt_run (cfg : ValidationLoopConfig) (b : ℕ → AttemptOutcome)
    (d : ℕ → ℚ) (g0 : ℚ) (h0 : List ValidationResult) (w0 : List ℕ) (t0 : ℕ)
    (k : ℕ) (s : LoopState)
    (hh : s.history = h0 ++ (List.range' 1 k).map (recordAt b d))
    (hg : s.gaming_score = scoreUpTo cfg b d g0 k)
    (hw : s.warnings = w0 ++ (List.range' 1 k).filter (warnAt cfg b d g0))
    (ht : s.taskCalls = t0 + k) :
    stepAttempt cfg b d (k + 1) s =
      (recordAt b d (k + 1),
       { history := h0 ++ (List.range' 1 (k + 1)).map (recordAt b d)
         gaming_score := scoreUpTo cfg b d g0 (k + 1)
         warnings := w0 ++ (List.range' 1 (k + 1)).filter (warnAt cfg b d g0)
         taskCalls := t0 + (k + 1) }) := by
  have hmap := range1_map_concat (recordAt b d) k
  have hfil := range1_filter_concat (warnAt cfg b d g0) k
  have hsc := scoreUpTo_succ cfg b d g0 k
  cases hb : b (k + 1) with
  | exn msg =>
      have hrec : recordAt b d (k + 1) = exnRecord msg (k + 1) (d (k + 1)) := by
        simp [recordAt, hb]
      have hdelta : deltaAt cfg b d (k + 1) = 0 := by
        simp [deltaAt, hb]
      have hwarn : warnAt cfg b d g0 (k + 1) = false := by
        simp [warnAt, detectionRuns, hb]
      simp only [stepAttempt, hb]
      rw [Prod.mk.injEq]
      constructor
      · rw [hrec]
      · rw [LoopState.mk.injEq] at *
        refine ⟨?_, ?_, ?_, ?_⟩
        · rw [hh, hmap, hrec, List.append_assoc]
        · rw [hg, hsc, hdelta, add_zero]
        · rw [hw, hfil, hwarn]
          simp
        · omega
  | ok vr =>
      by_cases hp : vr.passed = true
      · have hrec : recordAt b d (k + 1) = passRecord vr (k + 1) (d (k + 1)) := by
          simp [recordAt, hb, hp]
        have hdelta : deltaAt cfg b d (k + 1) = 0 := by
          simp [deltaAt, hb, hp]
        have hwarn : warnAt cfg b d g0 (k + 1) = false := by
          simp [warnAt, detectionRuns, hb, hp]
        simp only [stepAttempt, hb, hp, if_true]
        rw [Prod.mk.injEq]
        constructor
        · rw [hrec]
        · rw [LoopState.mk.injEq]
          refine ⟨?_, ?_, ?_, ?_⟩
          · rw [hh, hmap, hrec, List.append_assoc]
          · rw [hg, hsc, hdelta, add_zero]
          · rw [hw, hfil, hwarn]
            simp
          · omega
      · have hp' : vr.passed = false := by
          cases hvp : vr.passed
          · rfl
          · exact absurd hvp hp
        have hrec : recordAt b d (k + 1) = failRecord vr (k + 1) (d (k + 1)) := by
          simp [recordAt, hb, hp']
        by_cases hdet : 1 < k + 1 ∧ cfg.enable_gaming_detection = true
        · -- gaming detection runs: k ≥ 1 and detection enabled
          have hk : 1 ≤ k := by omega
          have hen : cfg.enable_gaming_detection = true := hdet.2
          obtain ⟨k', rfl⟩ : ∃ k', k = k' + 1 := ⟨k - 1, by omega⟩
          have hlast : s.history.getLast? = some (recordAt b d (k' + 1)) := by
            rw [hh, range1_map_concat, ← List.append_assoc, List.getLast?_concat]
          have hdgr := detectGamingInRetry_last s.history s.gaming_score vr
            (recordAt b d (k' + 1)) hlast
          have hdelta : deltaAt cfg b d (k' + 1 + 1) =
              gamingDelta (recordAt b d (k' + 1)) vr := by
            have : k' + 1 + 1 - 1 = k' + 1 := by omega
            simp [deltaAt, hb, hp', hen, this]
          have hscv : scoreUpTo cfg b d g0 (k' + 1 + 1) =
              s.gaming_score + gamingDelta (recordAt b d (k' + 1)) vr := by
            rw [hsc, hdelta, hg]
          have hwarn : warnAt cfg b d g0 (k' + 1 + 1) =
              decide ((0.5 : ℚ) < scoreUpTo cfg b d g0 (k' + 1 + 1)) := by
            simp [warnAt, detectionRuns, hb, hp', hen]
          simp only [stepAttempt, hb, hp', Bool.false_eq_true, if_false, hdet, and_self,
            if_true, hdgr]
          rw [Prod.mk.injEq]
          constructor
          · rw [hrec]
          · rw [LoopState.mk.injEq]
            refine ⟨?_, ?_, ?_, ?_⟩
            · rw [hh, hmap, hrec, List.append_assoc]
            · rw [hscv]
            · rw [hw, hfil, hwarn, hscv]
              by_cases hgt : (0.5 : ℚ) < s.gaming_score + gamingDelta (recordAt b d (k' + 1)) vr <;>
                simp [hgt]
            · omega
        · -- no detection: first attempt of the run, or detection disabled
          have hdelta : deltaAt cfg b d (k + 1) = 0 := by
            rcases Decidable.not_and_iff_or_not.mp hdet with h1 | h2
            · have hk0 : k = 0 := by omega
              subst hk0
              simp [deltaAt]
            · simp [deltaAt, h2]
          have hwarn : warnAt cfg b d g0 (k + 1) = false := by
            rcases Decidable.not_and_iff_or_not.mp hdet with h1 | h2
            · have hk0 : k = 0 := by omega
              subst hk0
              simp [warnAt, detectionRuns]
            · simp [warnAt, detectionRuns, h2]
          simp only [stepAttempt, hb, hp', Bool.false_eq_true, if_false, hdet]
          rw [Prod.mk.injEq]
          constructor
          · rw [hrec]
          · rw [LoopState.mk.injEq]
            refine ⟨?_, ?_, ?_, ?_⟩
            · rw [hh, hmap, hrec, List.append_assoc]
            · rw [hg, hsc, hdelta, add_zero]
            · rw [hw, hfil, hwarn]
              simp
            · omega

/-- Main characterization of the retry loop entered at attempt `k + 1`
with `fuel` attempts remaining: it returns the record of the stopping
attempt, and the final state holds the records, score deltas and warnings
of attempts `1 … stop`. -/
theorem executeAux_run (cfg : ValidationLoopConfig) (b : ℕ → AttemptOutcome)
    (d : ℕ → ℚ) (g0 : ℚ) (h0 : List ValidationResult) (w0 : List ℕ) (t0 : ℕ) :
    ∀ fuel k (s : LoopState), 1 ≤ fuel → (k + 1) + fuel = cfg.max_retries + 1 →
    s.history = h0 ++ (List.range' 1 k).map (recordAt b d) →
    s.gaming_score = scoreUpTo cfg b d g0 k →
    s.warnings = w0 ++ (List.range' 1 k).filter (warnAt cfg b d g0) →
    s.taskCalls = t0 + k →
    executeAux cfg b d fuel (k + 1) s =
      (recordAt b d (stopFrom cfg b fuel (k + 1)),
       { history := h0 ++ (List.range' 1 (stopFrom cfg b fuel (k + 1))).map (recordAt b d)
         gaming_score := scoreUpTo cfg b d g0 (stopFrom cfg b fuel (k + 1))
         warnings := w0 ++ (List.range' 1 (stopFrom cfg b fuel (k + 1))).filter (warnAt cfg b d g0)
         taskCalls := t0 + stopFrom cfg b fuel (k + 1) }) := by
  intro fuel
  induction fuel with
  | zero => intro k s h1; omega
  | succ f ih =>
      intro k s _ hsum hh hg hw ht
      have hstep := stepAttempt_run cfg b d g0 h0 w0 t0 k s hh hg hw ht
      rw [executeAux, hstep]
      by_cases hcond : passes (b (k + 1)) = true ∨ cfg.max_retries ≤ k + 1
      · have hpassed : (recordAt b d (k + 1)).passed = true ∨ cfg.max_retries ≤ k + 1 := by
          rw [recordAt_passed]; exact hcond
        rw [if_pos hpassed, stopFrom, if_pos hcond]
      · have hpassed : ¬((recordAt b d (k + 1)).passed = true ∨ cfg.max_retries ≤ k + 1) := by
          rw [recordAt_passed]; exact hcond
        rw [if_neg hpassed, stopFrom, if_neg hcond]
        have hf : 1 ≤ f := by omega
        have hsum' : (k + 1 + 1) + f = cfg.max_retries + 1 := by omega
        exact ih (k + 1) _ hf hsum' rfl rfl rfl rfl

/-- `ValidationLoop.execute` in closed form (for `max_retries ≥ 1`): it
returns the record of attempt `stopIndex`, appends the records of attempts
`1 … stopIndex` to the history, adds the per-attempt gaming deltas to the
score, and emits exactly the warnings given by `warnAt`. -/
theorem execute_run (cfg : ValidationLoopConfig) (b : ℕ → AttemptOutcome)
    (d : ℕ → ℚ) (s : LoopState) (h : 1 ≤ cfg.max_retries) :
    execute cfg b d s =
      (recordAt b d (stopIndex cfg b),
       { history := s.history ++ (List.range' 1 (stopIndex cfg b)).map (recordAt b d)
         gaming_score := scoreUpTo cfg b d s.gaming_score (stopIndex cfg b)
         warnings := s.warnings ++
           (List.range' 1 (stopIndex cfg b)).filter (warnAt cfg b d s.gaming_score)
         taskCalls := s.taskCalls + stopIndex cfg b }) := by
  have := executeAux_run cfg b d s.gaming_score s.history s.warnings s.taskCalls
    cfg.max_retries 0 s h (by omega) (by simp) (by simp [scoreUpTo]) (by simp) (by simp)
  exact this

theorem le_stopFrom (cfg : ValidationLoopConfig) (b : ℕ → AttemptOutcome) :
    ∀ fuel i, i ≤ stopFrom cfg b fuel i := by
  intro fuel
  induction fuel with
  | zero => intro i; simp [stopFrom]
  | succ f ih =>
      intro i
      rw [stopFrom]
      split
      · exact le_refl i
      · exact le_trans (Nat.le_succ i) (ih (i + 1))

theorem stopFrom_le (cfg : ValidationLoopConfig) (b : ℕ → AttemptOutcome) :
    ∀ fuel i, i ≤ cfg.max_retries → stopFrom cfg b fuel i ≤ cfg.max_retries := by
  intro fuel
  induction fuel with
  | zero => intro i hi; simpa [stopFrom] using hi
  | succ f ih =>
      intro i hi
      rw [stopFrom]
      split
      · exact hi
      · rename_i hcond
        have : ¬cfg.max_retries ≤ i := fun hc => hcond (Or.inr hc)
        exact ih (i + 1) (by omega)

theorem stopFrom_eq_of_pass (cfg : ValidationLoopConfig) (b : ℕ → AttemptOutcome) :
    ∀ fuel i k, i + fuel = cfg.max_retries + 1 → i ≤ k → k ≤ cfg.max_retries →
    passes (b k) = true → (∀ j, i ≤ j → j < k → passes (b j) = false) →
    stopFrom cfg b fuel i = k := by
  intro fuel
  induction fuel with
  | zero => intro i k hsum hik hk _ _; omega
  | succ f ih =>
      intro i k hsum hik hk hpass hfail
      rw [stopFrom]
      rcases Nat.eq_or_lt_of_le hik with rfl | hlt
      · rw [if_pos (Or.inl hpass)]
      · have hfi : passes (b i) = false := hfail i (le_refl i) hlt
        have hcond : ¬(passes (b i) = true ∨ cfg.max_retries ≤ i) := by
          rintro (hc | hc)
          · rw [hfi] at hc; exact Bool.false_ne_true hc
          · omega
        rw [if_neg hcond]
        exact ih (i + 1) k (by omega) hlt hk hpass
          (fun j hj1 hj2 => hfail j (by omega) hj2)

theorem stopFrom_eq_max_of_fail (cfg : ValidationLoopConfig) (b : ℕ → AttemptOutcome) :
    ∀ fuel i, i + fuel = cfg.max_retries + 1 → i ≤ cfg.max_retries →
    (∀ j, i ≤ j → j ≤ cfg.max_retries → passes (b j) = false) →
    stopFrom cfg b fuel i = cfg.max_retries := by
  intro fuel
  induction fuel with
  | zero => intro i hsum hi _; omega
  | succ f ih =>
      intro i hsum hi hfail
      rw [stopFrom]
      rcases Nat.eq_or_lt_of_le hi with rfl | hlt
      · rw [if_pos (Or.inr (le_refl _))]
      · have hfi : passes (b i) = false := hfail i (le_refl i) hi
        have hcond : ¬(passes (b i) = true ∨ cfg.max_retries ≤ i) := by
          rintro (hc | hc)
          · rw [hfi] at hc; exact Bool.false_ne_true hc
          · omega
        rw [if_neg hcond]
        exact ih (i + 1) (by omega) hlt (fun j hj1 hj2 => hfail j (by omega) hj2)

theorem stopFrom_ge (cfg : ValidationLoopConfig) (b : ℕ → AttemptOutcome) :
    ∀ fuel i0 i, i0 + fuel = cfg.max_retries + 1 → i0 ≤ i → i ≤ cfg.max_retries →
    (∀ j, i0 ≤ j → j < i → passes (b j) = false) →
    i ≤ stopFrom cfg b fuel i0 := by
  intro fuel
  induction fuel with
  | zero => intro i0 i hsum hi0 hi _; omega
  | succ f ih =>
      intro i0 i hsum hi0 hi hfail
      rcases Nat.eq_or_lt_of_le hi0 with rfl | hlt
      · exact le_stopFrom cfg b (f + 1) i0
      · have hfi : passes (b i0) = false := hfail i0 (le_refl i0) hlt
        have hcond : ¬(passes (b i0) = true ∨ cfg.max_retries ≤ i0) := by
          rintro (hc | hc)
          · rw [hfi] at hc; exact Bool.false_ne_true hc
          · omega
        rw [stopFrom, if_neg hcond]
        exact ih (i0 + 1) i (by omega) hlt hi (fun j hj1 hj2 => hfail j (by omega) hj2)

theorem gamingDelta_nonneg (prev r : ValidationResult) : 0 ≤ gamingDelta prev r := by
  unfold gamingDelta
  have h1 : (0 : ℚ) ≤ if prev.errors = r.errors then 0.2 else 0 := by positivity
  have h2 : (0 : ℚ) ≤ if prev.protocol ≠ r.protocol then 0.1 else 0 := by positivity
  linarith

theorem deltaAt_nonneg (cfg : ValidationLoopConfig) (b : ℕ → AttemptOutcome)
    (d : ℕ → ℚ) (i : ℕ) : 0 ≤ deltaAt cfg b d i := by
  unfold deltaAt
  split
  · cases b i with
    | ok vr =>
        by_cases hp : vr.passed = true
        · simp [hp]
        · have hp' : vr.passed = false := by
            cases hvp : vr.passed
            · rfl
            · exact absurd hvp hp
          simp only [hp', Bool.false_eq_true, if_false]
          exact gamingDelta_nonneg _ _
    | exn msg => exact le_refl 0
  · exact le_refl 0

theorem scoreUpTo_mono (cfg : ValidationLoopConfig) (b : ℕ → AttemptOutcome)
    (d : ℕ → ℚ) (g0 : ℚ) (n : ℕ) : g0 ≤ scoreUpTo cfg b d g0 n := by
  unfold scoreUpTo
  have : 0 ≤ ((List.range' 1 n).map (deltaAt cfg b d)).sum := by
    apply List.sum_nonneg
    intro x hx
    rcases List.mem_map.mp hx with ⟨i, _, rfl⟩
    exact deltaAt_nonneg cfg b d i

  linarith

/-- C6: for every failing attempt, `_analyze_failure` maps the protocol
tag through a fixed lookup: `DGTS` yields primary cause "Gaming pattern
detected" with severity "Critical", `NLNH` yields "Truth/confidence
violation" with severity "High", and a missing protocol tag yields
"Unknown" with severity "Medium". -/
theorem claim6_analyze_failure_lookup (vr : ValidationResult) :
    (vr.protocol = some ValidationProtocol.DGTS →
      (analyzeFailure vr).primary_cause = "Gaming pattern detected" ∧
      (analyzeFailure vr).severity = "Critical") ∧
    (vr.protocol = some ValidationProtocol.NLNH →
      (analyzeFailure vr).primary_cause = "Truth/confidence violation" ∧
      (analyzeFailure vr).severity = "High") ∧
    (vr.protocol = none →
      (analyzeFailure vr).primary_cause = "Unknown" ∧
      (analyzeFailure vr).severity = "Medium") := by
  refine ⟨?_, ?_, ?_⟩ <;> intro hp <;> simp [analyzeFailure, hp]

/-- Witness for C6 at concrete failing results. -/
theorem claim6_witness :
    (analyzeFailure (failingVR (some ValidationProtocol.DGTS) [] "")).primary_cause =
      "Gaming pattern detected" ∧
    (analyzeFailure (failingVR (some ValidationProtocol.NLNH) [] "")).severity = "High" ∧
    (analyzeFailure (failingVR none [] "")).primary_cause = "Unknown" :=
  ⟨((claim6_analyze_failure_lookup _).1 rfl).1,
   ((claim6_analyze_failure_lookup _).2.1 rfl).2,
   ((claim6_analyze_failure_lookup _).2.2 rfl).1⟩

/-- C2: on every failing validation attempt after the first, with gaming
detection enabled, the loop body raises the gaming score by 0.2 when the
attempt's errors equal the immediately preceding recorded attempt's
errors, plus 0.1 when its protocol tag differs from the preceding
attempt's; when neither condition holds the score is unchanged (both
addends are 0). -/
theorem claim2_gaming_score_step (cfg : ValidationLoopConfig) (b : ℕ → AttemptOutcome)
    (d : ℕ → ℚ) (i : ℕ) (s : LoopState) (vr prev : ValidationResult)
    (hen : cfg.enable_gaming_detection = true) (hi : 2 ≤ i)
    (hb : b i = AttemptOutcome.ok vr) (hp : vr.passed = false)
    (hprev : s.history.getLast? = some prev) :
    (stepAttempt cfg b d i s).2.gaming_score =
      s.gaming_score + ((if prev.errors = vr.errors then (0.2 : ℚ) else 0) +
        (if prev.protocol ≠ vr.protocol then (0.1 : ℚ) else 0)) := by
  have hdgr := detectGamingInRetry_last s.history s.gaming_score vr prev hprev
  have hdet : 1 < i ∧ cfg.enable_gaming_detection = true := ⟨by omega, hen⟩
  simp only [stepAttempt, hb, hp, Bool.false_eq_true, if_false, hdet, and_self, if_true,
    hdgr, gamingDelta]

/-- Witness for C2: a retry whose errors repeat the recorded attempt's
errors with an unchanged protocol adds 0.2 + 0. -/
theorem claim2_witness :
    (stepAttempt (cfgR 3) (alwaysOutcome (failingVR (some ValidationProtocol.NLNH) ["e"] "f"))
        zeroDur 2 stateW2).2.gaming_score =
      stateW2.gaming_score +
        ((if prevRec.errors = (failingVR (some ValidationProtocol.NLNH) ["e"] "f").errors
            then (0.2 : ℚ) else 0) +
         (if prevRec.protocol ≠ (failingVR (some ValidationProtocol.NLNH) ["e"] "f").protocol
            then (0.1 : ℚ) else 0)) :=
  claim2_gaming_score_step (cfgR 3)
    (alwaysOutcome (failingVR (some ValidationProtocol.NLNH) ["e"] "f")) zeroDur 2 stateW2
    (failingVR (some ValidationProtocol.NLNH) ["e"] "f") prevRec rfl (by decide) rfl rfl rfl

/-- C5: for `max_retries ≥ 1` the loop always terminates (the embedding
is a total function of the fuel `max_retries`), processes exactly
`stopIndex` attempts — calling the task function once per attempt — and
therefore invokes the task function at most `max_retries` times. -/
theorem claim5_terminates_within_max_retries (cfg : ValidationLoopConfig)
    (b : ℕ → AttemptOutcome) (d : ℕ → ℚ) (s : LoopState)
    (h : 1 ≤ cfg.max_retries) :
    (execute cfg b d s).2.taskCalls = s.taskCalls + stopIndex cfg b ∧
    stopIndex cfg b ≤ cfg.max_retries ∧
    (execute cfg b d s).2.taskCalls ≤ s.taskCalls + cfg.max_retries ∧
    (execute cfg b d s).2.history.length = s.history.length + stopIndex cfg b := by
  have hrun := execute_run cfg b d s h
  have hle : stopIndex cfg b ≤ cfg.max_retries := stopFrom_le cfg b cfg.max_retries 1 h
  rw [hrun]
  refine ⟨rfl, hle, by simp; omega, ?_⟩
  simp

/-- Witness for C5: two exception attempts under `max_retries = 2` give
exactly 2 task calls and 2 recorded attempts. -/
theorem claim5_witness :
    (execute (cfgR 2) allExn zeroDur initLoop).2.taskCalls =
      initLoop.taskCalls + stopIndex (cfgR 2) allExn ∧
    stopIndex (cfgR 2) allExn ≤ (cfgR 2).max_retries ∧
    (execute (cfgR 2) allExn zeroDur initLoop).2.taskCalls ≤
      initLoop.taskCalls + (cfgR 2).max_retries ∧
    (execute (cfgR 2) allExn zeroDur initLoop).2.history.length =
      initLoop.history.length + stopIndex (cfgR 2) allExn :=
  claim5_terminates_within_max_retries (cfgR 2) allExn zeroDur initLoop (by decide)

/-- C1: with `max_retries ≥ 1`, `execute` stops at the first attempt whose
validation passes, returning a result with `passed = true` and `attempt`
equal to that attempt's 1-based index; otherwise it returns the last
attempt's failing result after exactly `max_retries` failing attempts.
In both cases every processed attempt, passing or failing, is appended to
the attempt history. -/
theorem claim1_execute_first_pass (cfg : ValidationLoopConfig)
    (b : ℕ → AttemptOutcome) (d : ℕ → ℚ) (s : LoopState)
    (h : 1 ≤ cfg.max_retries) :
    (∀ k, 1 ≤ k → k ≤ cfg.max_retries → passes (b k) = true →
       (∀ j, 1 ≤ j → j < k → passes (b j) = false) →
       (execute cfg b d s).1.passed = true ∧
       (execute cfg b d s).1.attempt = k ∧
       (execute cfg b d s).2.history =
         s.history ++ (List.range' 1 k).map (recordAt b d)) ∧
    ((∀ k, 1 ≤ k → k ≤ cfg.max_retries → passes (b k) = false) →
       (execute cfg b d s).1.passed = false ∧
       (execute cfg b d s).1.attempt = cfg.max_retries ∧
       (execute cfg b d s).1 = recordAt b d cfg.max_retries ∧
       (execute cfg b d s).2.history =
         s.history ++ (List.range' 1 cfg.max_retries).map (recordAt b d) ∧
       (execute cfg b d s).2.history.getLast? = some ((execute cfg b d s).1)) := by
  have hrun := execute_run cfg b d s h
  constructor
  · intro k hk1 hk2 hkp hkf
    have hstop : stopIndex cfg b = k :=
      stopFrom_eq_of_pass cfg b cfg.max_retries 1 k (by omega) hk1 hk2 hkp hkf
    simp only [hrun, hstop]
    refine ⟨?_, recordAt_attempt b d k, trivial⟩
    rw [recordAt_passed, hkp]
  · intro hall
    have hstop : stopIndex cfg b = cfg.max_retries :=
      stopFrom_eq_max_of_fail cfg b cfg.max_retries 1 (by omega) h
        (fun j hj1 hj2 => hall j hj1 hj2)
    simp only [hrun, hstop]
    refine ⟨?_, recordAt_attempt b d _, trivial, trivial, ?_⟩
    · rw [recordAt_passed]
      exact hall cfg.max_retries h (le_refl _)
    · obtain ⟨m, hm⟩ : ∃ m, cfg.max_retries = m + 1 := ⟨cfg.max_retries - 1, by omega⟩
      rw [hm, range1_map_concat, ← List.append_assoc, List.getLast?_concat]

/-- Witness for C1: with attempt 1 failing and attempt 2 passing under
`max_retries = 3`, the loop returns a passing result for attempt 2 and
records both attempts. -/
theorem claim1_witness :
    (execute (cfgR 3) passAtTwo zeroDur initLoop).1.passed = true ∧
    (execute (cfgR 3) passAtTwo zeroDur initLoop).1.attempt = 2 ∧
    (execute (cfgR 3) passAtTwo zeroDur initLoop).2.history =
      initLoop.history ++ (List.range' 1 2).map (recordAt passAtTwo zeroDur) :=
  (claim1_execute_first_pass (cfgR 3) passAtTwo zeroDur initLoop (by decide)).1 2
    (by decide) (by decide) rfl
    (by
      intro j h1 h2
      have hj : j = 1 := by omega
      subst hj
      rfl)

/-- C4: no exception raised by the task or validation function escapes
`execute`: an attempt whose outcome is an exception is recorded in the
history as a failing attempt whose errors list is exactly the exception's
message, after which the loop moves on to attempt `i + 1` when attempts
remain, and returns that failing record when `i = max_retries`. -/
theorem claim4_exceptions_contained (cfg : ValidationLoopConfig)
    (b : ℕ → AttemptOutcome) (d : ℕ → ℚ) (s : LoopState) (i : ℕ) (msg : String)
    (h1 : 1 ≤ i) (h2 : i ≤ cfg.max_retries) (hb : b i = AttemptOutcome.exn msg)
    (hprior : ∀ j, 1 ≤ j → j < i → passes (b j) = false) :
    exnRecord msg i (d i) ∈ (execute cfg b d s).2.history ∧
    (exnRecord msg i (d i)).passed = false ∧
    (exnRecord msg i (d i)).errors = [msg] ∧
    (i < cfg.max_retries → i + 1 ≤ stopIndex cfg b) ∧
    (i = cfg.max_retries → (execute cfg b d s).1 = exnRecord msg i (d i)) := by
  have hmax : 1 ≤ cfg.max_retries := le_trans h1 h2
  have hrun := execute_run cfg b d s hmax
  have hreceq : recordAt b d i = exnRecord msg i (d i) := by
    simp [recordAt, hb]
  have hstopge : i ≤ stopIndex cfg b :=
    stopFrom_ge cfg b cfg.max_retries 1 i (by omega) h1 h2 hprior
  refine ⟨?_, rfl, rfl, ?_, ?_⟩
  · simp only [hrun]
    apply List.mem_append_right
    apply List.mem_map.mpr
    refine ⟨i, ?_, hreceq⟩
    apply List.mem_range'_1.mpr
    constructor
    · exact h1
    · omega
  · intro hlt
    apply stopFrom_ge cfg b cfg.max_retries 1 (i + 1) (by omega) (by omega) (by omega)
    intro j hj1 hj2
    rcases Nat.lt_or_ge j i with hji | hji
    · exact hprior j hj1 hji
    · have hjeq : j = i := by omega
      subst hjeq
      simp [passes, hb]
  · intro heq
    have hstople : stopIndex cfg b ≤ cfg.max_retries :=
      stopFrom_le cfg b cfg.max_retries 1 hmax
    have hstop : stopIndex cfg b = i := by omega
    simp only [hrun, hstop]
    exact hreceq

/-- Witness for C4: a first-attempt exception under `max_retries = 2` is
recorded and the loop moves on to attempt 2. -/
theorem claim4_witness :
    exnRecord "boom" 1 (zeroDur 1) ∈ (execute (cfgR 2) allExn zeroDur initLoop).2.history ∧
    (exnRecord "boom" 1 (zeroDur 1)).passed = false ∧
    (exnRecord "boom" 1 (zeroDur 1)).errors = ["boom"] ∧
    (1 < (cfgR 2).max_retries → 1 + 1 ≤ stopIndex (cfgR 2) allExn) ∧
    (1 = (cfgR 2).max_retries →
      (execute (cfgR 2) allExn zeroDur initLoop).1 = exnRecord "boom" 1 (zeroDur 1)) :=
  claim4_exceptions_contained (cfgR 2) allExn zeroDur initLoop 1 "boom" (by decide)
    (by decide) rfl (by intro j hj1 hj2; omega)

/-- C10: when every attempt raises an exception, each recorded attempt
carries no protocol tag and is failing, gaming detection never runs, and
the gaming score (and warning log) is unchanged — even though consecutive
attempts have identical error lists. -/
theorem claim10_exceptions_skip_gaming_detection (cfg : ValidationLoopConfig)
    (b : ℕ → AttemptOutcome) (d : ℕ → ℚ) (s : LoopState) (msg : String)
    (h : 1 ≤ cfg.max_retries) (hb : ∀ i, 1 ≤ i → b i = AttemptOutcome.exn msg) :
    (execute cfg b d s).2.gaming_score = s.gaming_score ∧
    (execute cfg b d s).2.warnings = s.warnings ∧
    (∀ r ∈ (execute cfg b d s).2.history.drop s.history.length,
       r.protocol = none ∧ r.passed = false) := by
  have hrun := execute_run cfg b d s h
  refine ⟨?_, ?_, ?_⟩
  · simp only [hrun]
    show scoreUpTo cfg b d s.gaming_score (stopIndex cfg b) = s.gaming_score
    unfold scoreUpTo
    have hz : ∀ x ∈ (List.range' 1 (stopIndex cfg b)).map (deltaAt cfg b d), x = 0 := by
      intro x hx
      rcases List.mem_map.mp hx with ⟨i, hi, rfl⟩
      have hi1 : 1 ≤ i := (List.mem_range'_1.mp hi).1
      simp [deltaAt, hb i hi1]
    rw [List.sum_eq_zero hz, add_zero]
  · simp only [hrun]
    show s.warnings ++ _ = s.warnings
    have hz : (List.range' 1 (stopIndex cfg b)).filter
        (warnAt cfg b d s.gaming_score) = [] := by
      apply List.filter_eq_nil_iff.mpr
      intro i hi
      have hi1 : 1 ≤ i := (List.mem_range'_1.mp hi).1
      simp [warnAt, detectionRuns, hb i hi1]
    rw [hz, List.append_nil]
  · intro r hr
    simp only [hrun] at hr
    rw [List.drop_left] at hr
    rcases List.mem_map.mp hr with ⟨i, hi, rfl⟩
    have hi1 : 1 ≤ i := (List.mem_range'_1.mp hi).1
    constructor
    · simp [recordAt, hb i hi1, exnRecord]
    · simp [recordAt, hb i hi1, exnRecord]

/-- Witness for C10: two consecutive identical exceptions leave the gaming
score at 0 and the recorded attempts untagged. -/
theorem claim10_witness :
    (execute (cfgR 2) allExn zeroDur initLoop).2.gaming_score = initLoop.gaming_score ∧
    (execute (cfgR 2) allExn zeroDur initLoop).2.warnings = initLoop.warnings :=
  ⟨(claim10_exceptions_skip_gaming_detection (cfgR 2) allExn zeroDur initLoop "boom"
      (by decide) (fun i _ => rfl)).1,
   (claim10_exceptions_skip_gaming_detection (cfgR 2) allExn zeroDur initLoop "boom"
      (by decide) (fun i _ => rfl)).2.1⟩

/-- C9 (amended): the gaming score starts at 0 and no operation lowers or
resets it, and both the score and the history persist across successive
`execute` calls on the same instance (each call only appends to the
history and only adds to the score).  However, gaming detection runs only
from the second attempt of a call onward and always compares against the
immediately preceding recorded attempt, which belongs to the same call —
so a later call's behaviour (its returned result, its score increment and
its newly recorded attempts) is independent of the history carried over
from earlier calls. -/
theorem claim9_gaming_state_invariants :
    initLoop.gaming_score = 0 ∧ initLoop.history = [] ∧
    (∀ (cfg : ValidationLoopConfig) (b : ℕ → AttemptOutcome) (d : ℕ → ℚ)
       (s : LoopState), 1 ≤ cfg.max_retries →
       s.gaming_score ≤ (execute cfg b d s).2.gaming_score ∧
       (∃ t, (execute cfg b d s).2.history = s.history ++ t)) ∧
    (∀ (cfg : ValidationLoopConfig) (b : ℕ → AttemptOutcome) (d : ℕ → ℚ)
       (s1 s2 : LoopState), 1 ≤ cfg.max_retries →
       s1.gaming_score = s2.gaming_score →
       (execute cfg b d s1).1 = (execute cfg b d s2).1 ∧
       (execute cfg b d s1).2.gaming_score - s1.gaming_score =
         (execute cfg b d s2).2.gaming_score - s2.gaming_score ∧
       (execute cfg b d s1).2.history.drop s1.history.length =
         (execute cfg b d s2).2.history.drop s2.history.length) := by
  refine ⟨rfl, rfl, ?_, ?_⟩
  · intro cfg b d s h
    have hrun := execute_run cfg b d s h
    constructor
    · simp only [hrun]
      exact scoreUpTo_mono cfg b d s.gaming_score (stopIndex cfg b)
    · exact ⟨(List.range' 1 (stopIndex cfg b)).map (recordAt b d), by simp only [hrun]⟩
  · intro cfg b d s1 s2 h hg
    have hrun1 := execute_run cfg b d s1 h
    have hrun2 := execute_run cfg b d s2 h
    refine ⟨?_, ?_, ?_⟩
    · simp only [hrun1, hrun2]
    · simp only [hrun1, hrun2]
      show scoreUpTo cfg b d s1.gaming_score (stopIndex cfg b) - s1.gaming_score =
        scoreUpTo cfg b d s2.gaming_score (stopIndex cfg b) - s2.gaming_score
      unfold scoreUpTo
      ring
    · simp only [hrun1, hrun2]
      rw [List.drop_left, List.drop_left]

/-- Counterexample to C9 as stated.  Its final clause says that gaming
detection in a later `execute` call compares the call's first failing
retry against the previous call's last recorded attempt.  Here the first
call records one failing attempt with errors `["A"]`; in the second call,
attempt 1 fails with errors `["B"]` and attempt 2 — the first failing
retry — fails with errors `["A"]` under the same protocol.  Under the
claim, the retry's errors are identical to the previous call's last
recorded attempt, so the score would rise by 0.2; the code instead
compares attempt 2 against the same call's attempt 1 (errors `["B"]`) and
leaves the gaming score at 0. -/
theorem claim9_counterexample :
    (execute (cfgR 1) (alwaysOutcome vrA) zeroDur initLoop).2.history.getLast? =
      some (failRecord vrA 1 0) ∧
    (failRecord vrA 1 0).errors = ["A"] ∧
    secondCallB 2 = AttemptOutcome.ok vrA ∧
    vrA.errors = ["A"] ∧
    (cfgR 2).enable_gaming_detection = true ∧
    (execute (cfgR 2) secondCallB zeroDur
        (execute (cfgR 1) (alwaysOutcome vrA) zeroDur initLoop).2).2.gaming_score = 0 := by
  refine ⟨rfl, rfl, rfl, rfl, rfl, ?_⟩
  rfl

/-- Witness for the amended C9 at concrete inputs. -/
theorem claim9_witness :
    initLoop.gaming_score ≤
      (execute (cfgR 1) (alwaysOutcome vrA) zeroDur initLoop).2.gaming_score ∧
    (execute (cfgR 1) (alwaysOutcome vrA) zeroDur initLoop).1 =
      (execute (cfgR 1) (alwaysOutcome vrA) zeroDur stateW2).1 :=
  ⟨((claim9_gaming_state_invariants).2.2.1 (cfgR 1) (alwaysOutcome vrA) zeroDur
      initLoop (by decide)).1,
   ((claim9_gaming_state_invariants).2.2.2 (cfgR 1) (alwaysOutcome vrA) zeroDur
      initLoop stateW2 (by decide) rfl).1⟩

theorem failingVR_passed (p : Option ValidationProtocol) (E : List String)
    (m : String) : (failingVR p E m).passed = false := rfl

theorem failingVR_errors (p : Option ValidationProtocol) (E : List String)
    (m : String) : (failingVR p E m).errors = E := rfl

theorem failingVR_protocol (p : Option ValidationProtocol) (E : List String)
    (m : String) : (failingVR p E m).protocol = p := rfl

theorem constFail_deltaAt (r : ℕ) (p : Option ValidationProtocol) (E : List String)
    (m : String) (d : ℕ → ℚ) (i : ℕ) (hi : 2 ≤ i) :
    deltaAt (cfgR r) (alwaysOutcome (failingVR p E m)) d i = 0.2 := by
  have hrec : recordAt (alwaysOutcome (failingVR p E m)) d (i - 1) =
      failRecord (failingVR p E m) (i - 1) (d (i - 1)) := by
    simp [recordAt, alwaysOutcome, failingVR_passed]
  simp [deltaAt, alwaysOutcome, hi, cfgR, hrec, failRecord, gamingDelta,
    failingVR_passed, failingVR_errors, failingVR_protocol]

theorem constFail_scoreUpTo (r : ℕ) (p : Option ValidationProtocol) (E : List String)
    (m : String) (d : ℕ → ℚ) (n : ℕ) (hn : 1 ≤ n) :
    scoreUpTo (cfgR r) (alwaysOutcome (failingVR p E m)) d 0 n =
      ((n - 1 : ℕ) : ℚ) * 0.2 := by
  induction n with
  | zero => omega
  | succ k ih =>
      rcases Nat.eq_zero_or_pos k with rfl | hk
      · rw [scoreUpTo_succ, scoreUpTo_zero]
        norm_num [deltaAt]
      · rw [scoreUpTo_succ, ih hk, constFail_deltaAt r p E m d (k + 1) (by omega)]
        have e1 : k + 1 - 1 = k := rfl
        rw [e1, Nat.cast_sub hk]
        push_cast
        ring

theorem constFail_warnAt (r : ℕ) (p : Option ValidationProtocol) (E : List String)
    (m : String) (d : ℕ → ℚ) (i : ℕ) (hi : 2 ≤ i) :
    warnAt (cfgR r) (alwaysOutcome (failingVR p E m)) d 0 i =
      decide ((0.5 : ℚ) < ((i - 1 : ℕ) : ℚ) * 0.2) := by
  rw [warnAt, constFail_scoreUpTo r p E m d i (by omega)]
  simp [detectionRuns, alwaysOutcome, failingVR, hi, cfgR]

/-- C3: starting from a fresh loop, consecutive failing retry attempts
with identical error lists and the same protocol raise the gaming score by
exactly 0.2 each.  With `max_retries = 3` (first failure plus two
repeats) the score is 0.4 and no high-gaming-score warning is emitted;
with `max_retries = 4` the third repeat lifts the score to 0.6, above the
0.5 threshold, and the warning fires at attempt 4; and with
`max_retries = 5` the loop still continues past the warning to attempt 5,
so the warning never by itself terminates the retry loop. -/
theorem claim3_gaming_threshold (p : Option ValidationProtocol) (E : List String)
    (m : String) (d : ℕ → ℚ) :
    ((execute (cfgR 3) (alwaysOutcome (failingVR p E m)) d initLoop).2.gaming_score = 0.4 ∧
     (execute (cfgR 3) (alwaysOutcome (failingVR p E m)) d initLoop).2.warnings = []) ∧
    ((execute (cfgR 4) (alwaysOutcome (failingVR p E m)) d initLoop).2.gaming_score = 0.6 ∧
     (execute (cfgR 4) (alwaysOutcome (failingVR p E m)) d initLoop).2.warnings = [4]) ∧
    ((execute (cfgR 5) (alwaysOutcome (failingVR p E m)) d initLoop).1.attempt = 5 ∧
     (execute (cfgR 5) (alwaysOutcome (failingVR p E m)) d initLoop).2.warnings = [4, 5]) := by
  have hfail : ∀ j : ℕ, passes (alwaysOutcome (failingVR p E m) j) = false :=
    fun _ => rfl
  have hg : initLoop.gaming_score = (0 : ℚ) := rfl
  have hw : initLoop.warnings = ([] : List ℕ) := rfl
  have h1 : ∀ r, warnAt (cfgR r) (alwaysOutcome (failingVR p E m)) d 0 1 = false := by
    intro r
    simp [warnAt, detectionRuns]
  have h2 : ∀ r, warnAt (cfgR r) (alwaysOutcome (failingVR p E m)) d 0 2 = false := by
    intro r
    rw [constFail_warnAt r p E m d 2 (by norm_num)]
    exact decide_eq_false (by norm_num)
  have h3 : ∀ r, warnAt (cfgR r) (alwaysOutcome (failingVR p E m)) d 0 3 = false := by
    intro r
    rw [constFail_warnAt r p E m d 3 (by norm_num)]
    exact decide_eq_false (by norm_num)
  have h4 : ∀ r, warnAt (cfgR r) (alwaysOutcome (failingVR p E m)) d 0 4 = true := by
    intro r
    rw [constFail_warnAt r p E m d 4 (by norm_num)]
    exact decide_eq_true (by norm_num)
  have h5 : ∀ r, warnAt (cfgR r) (alwaysOutcome (failingVR p E m)) d 0 5 = true := by
    intro r
    rw [constFail_warnAt r p E m d 5 (by norm_num)]
    exact decide_eq_true (by norm_num)
  have hstop3 : stopIndex (cfgR 3) (alwaysOutcome (failingVR p E m)) = 3 :=
    stopFrom_eq_max_of_fail (cfgR 3) (alwaysOutcome (failingVR p E m))
      (cfgR 3).max_retries 1 (by norm_num [cfgR]) (by norm_num [cfgR])
      (fun j _ _ => hfail j)
  have hstop4 : stopIndex (cfgR 4) (alwaysOutcome (failingVR p E m)) = 4 :=
    stopFrom_eq_max_of_fail (cfgR 4) (alwaysOutcome (failingVR p E m))
      (cfgR 4).max_retries 1 (by norm_num [cfgR]) (by norm_num [cfgR])
      (fun j _ _ => hfail j)
  have hstop5 : stopIndex (cfgR 5) (alwaysOutcome (failingVR p E m)) = 5 :=
    stopFrom_eq_max_of_fail (cfgR 5) (alwaysOutcome (failingVR p E m))
      (cfgR 5).max_retries 1 (by norm_num [cfgR]) (by norm_num [cfgR])
      (fun j _ _ => hfail j)
  have hrun3 := execute_run (cfgR 3) (alwaysOutcome (failingVR p E m)) d initLoop
    (by norm_num [cfgR])
  have hrun4 := execute_run (cfgR 4) (alwaysOutcome (failingVR p E m)) d initLoop
    (by norm_num [cfgR])
  have hrun5 := execute_run (cfgR 5) (alwaysOutcome (failingVR p E m)) d initLoop
    (by norm_num [cfgR])
  refine ⟨⟨?_, ?_⟩, ⟨?_, ?_⟩, ⟨?_, ?_⟩⟩
  · simp only [hrun3, hstop3]
    show scoreUpTo (cfgR 3) (alwaysOutcome (failingVR p E m)) d initLoop.gaming_score 3 = 0.4
    rw [hg, constFail_scoreUpTo 3 p E m d 3 (by norm_num)]
    norm_num
  · simp only [hrun3, hstop3]
    show initLoop.warnings ++ (List.range' 1 3).filter
      (warnAt (cfgR 3) (alwaysOutcome (failingVR p E m)) d initLoop.gaming_score) = []
    rw [hg, hw]
    have hr : List.range' 1 3 = [1, 2, 3] := rfl
    rw [hr]
    simp [List.filter, h1 3, h2 3, h3 3]
  · simp only [hrun4, hstop4]
    show scoreUpTo (cfgR 4) (alwaysOutcome (failingVR p E m)) d initLoop.gaming_score 4 = 0.6
    rw [hg, constFail_scoreUpTo 4 p E m d 4 (by norm_num)]
    norm_num
  · simp only [hrun4, hstop4]
    show initLoop.warnings ++ (List.range' 1 4).filter
      (warnAt (cfgR 4) (alwaysOutcome (failingVR p E m)) d initLoop.gaming_score) = [4]
    rw [hg, hw]
    have hr : List.range' 1 4 = [1, 2, 3, 4] := rfl
    rw [hr]
    simp [List.filter, h1 4, h2 4, h3 4, h4 4]
  · simp only [hrun5, hstop5]
    exact recordAt_attempt (alwaysOutcome (failingVR p E m)) d 5
  · simp only [hrun5, hstop5]
    show initLoop.warnings ++ (List.range' 1 5).filter
      (warnAt (cfgR 5) (alwaysOutcome (failingVR p E m)) d initLoop.gaming_score) = [4, 5]
    rw [hg, hw]
    have hr : List.range' 1 5 = [1, 2, 3, 4, 5] := rfl
    rw [hr]
    simp [List.filter, h1 5, h2 5, h3 5, h4 5, h5 5]

/-- C7 (amended): `get_summary` is consistent with the history — the
attempt count is the history's length, pass and fail counts sum to it,
per-protocol failure counts count exactly the failing attempts tagged
with each protocol, the final status is PASSED exactly when the last
recorded attempt passed, and the reported total elapsed time is the sum
of per-attempt durations rounded to two decimal places (Python's
`round(x, 2)`), not the exact sum. -/
theorem claim7_summary_consistent (s : LoopState) :
    (getSummary s).total_attempts = s.history.length ∧
    (getSummary s).passed = (s.history.filter (fun r => r.passed)).length ∧
    (getSummary s).passed + (getSummary s).failed = (getSummary s).total_attempts ∧
    (getSummary s).total_duration =
      round2 ((s.history.map (fun r => r.duration)).sum) ∧
    (∀ p, (getSummary s).protocols_failed p =
      (s.history.filter (fun r => !r.passed && decide (r.protocol = some p))).length) ∧
    ((getSummary s).final_status = "PASSED" ↔
      ∃ r, s.history.getLast? = some r ∧ r.passed = true) := by
  have hfs : (getSummary s).final_status =
      if (s.history.getLast?.map (fun r => r.passed)).getD false then "PASSED"
      else "FAILED" := rfl
  refine ⟨rfl, rfl, ?_, rfl, fun p => rfl, ?_⟩
  · have hle : (s.history.filter (fun r => r.passed)).length ≤ s.history.length :=
      List.length_filter_le _ _
    have h1 : (getSummary s).passed = (s.history.filter (fun r => r.passed)).length := rfl
    have h2 : (getSummary s).failed =
        s.history.length - (s.history.filter (fun r => r.passed)).length := rfl
    have h3 : (getSummary s).total_attempts = s.history.length := rfl
    omega
  · constructor
    · intro hps
      rcases hl : s.history.getLast? with _ | r
      · rw [hfs, hl] at hps
        simp at hps
      · cases hp : r.passed
        · rw [hfs, hl] at hps
          simp [hp] at hps
        · exact ⟨r, rfl, hp⟩
    · rintro ⟨r, hl, hp⟩
      rw [hfs, hl]
      simp [hp]

/-- Counterexample to C7 as stated: the claim says the summary's total
elapsed time equals the sum of per-attempt durations, but `get_summary`
rounds the sum to two decimal places — for a single attempt of duration
0.001 the summary reports 0. -/
theorem claim7_counterexample :
    (getSummary smallDurState).total_duration ≠
      (smallDurState.history.map (fun r => r.duration)).sum := by
  have h1 : (getSummary smallDurState).total_duration =
      round2 ((smallDurState.history.map (fun r => r.duration)).sum) := rfl
  have h2 : (smallDurState.history.map (fun r => r.duration)).sum = 1 / 1000 := by
    simp [smallDurState]
  rw [h1, h2]
  unfold round2
  have hr : round ((1 : ℚ) / 1000 * 100) = 0 := by
    norm_num [round_eq]
  rw [hr]
  norm_num

/-- C8 (amended): a failing validation attempt is recorded with the
protocol-specific suggestions of `_generate_fix_suggestions`, and that
list is non-empty for every protocol tag (including a missing one) except
`ZeroTolerance`, where it is empty exactly when the joined, lowercased
error text contains none of the recognized keywords (console.log,
typescript, type error, eslint, catch, error). -/
theorem claim8_suggestions_amended (vr : ValidationResult) (i : ℕ) (dur : ℚ)
    (_hp : vr.passed = false) :
    (failRecord vr i dur).suggestions =
      generateFixSuggestions vr (analyzeFailure vr) ∧
    (vr.protocol ≠ some ValidationProtocol.ZERO_TOLERANCE →
      (failRecord vr i dur).suggestions ≠ []) ∧
    (vr.protocol = some ValidationProtocol.ZERO_TOLERANCE →
      ((failRecord vr i dur).suggestions = [] ↔
        (strContains (lowerJoin vr.errors) "console.log" = false ∧
         strContains (lowerJoin vr.errors) "typescript" = false ∧
         strContains (lowerJoin vr.errors) "type error" = false ∧
         strContains (lowerJoin vr.errors) "eslint" = false ∧
         strContains (lowerJoin vr.errors) "catch" = false ∧
         strContains (lowerJoin vr.errors) "error" = false))) := by
  refine ⟨rfl, ?_, ?_⟩
  · intro hne
    rcases hvp : vr.protocol with _ | pr
    · simp [failRecord, generateFixSuggestions, hvp]
    · cases pr with
      | ZERO_TOLERANCE => exact (hne hvp).elim
      | NLNH => simp [failRecord, generateFixSuggestions, hvp]
      | DGTS => simp [failRecord, generateFixSuggestions, hvp]
      | DOC_TDD => simp [failRecord, generateFixSuggestions, hvp]
      | ANTIHALL => simp [failRecord, generateFixSuggestions, hvp]
      | E2E => simp [failRecord, generateFixSuggestions, hvp]
  · intro hzt
    simp only [failRecord, generateFixSuggestions, hzt]
    cases hc1 : strContains (lowerJoin vr.errors) "console.log" <;>
    cases hc2 : strContains (lowerJoin vr.errors) "typescript" <;>
    cases hc3 : strContains (lowerJoin vr.errors) "type error" <;>
    cases hc4 : strContains (lowerJoin vr.errors) "eslint" <;>
    cases hc5 : strContains (lowerJoin vr.errors) "catch" <;>
    cases hc6 : strContains (lowerJoin vr.errors) "error" <;>
      simp [hc1, hc2, hc3, hc4, hc5, hc6]

/-- Witness for the amended C8 at a concrete `NLNH` failure. -/
theorem claim8_witness :
    (failRecord (failingVR (some ValidationProtocol.NLNH) ["x"] "y") 1 0).suggestions =
      generateFixSuggestions (failingVR (some ValidationProtocol.NLNH) ["x"] "y")
        (analyzeFailure (failingVR (some ValidationProtocol.NLNH) ["x"] "y")) ∧
    (failRecord (failingVR (some ValidationProtocol.NLNH) ["x"] "y") 1 0).suggestions ≠ [] :=
  ⟨(claim8_suggestions_amended (failingVR (some ValidationProtocol.NLNH) ["x"] "y") 1 0
      rfl).1,
   (claim8_suggestions_amended (failingVR (some ValidationProtocol.NLNH) ["x"] "y") 1 0
      rfl).2.1 (by decide)⟩

/-- Counterexample to C8 as stated: a `ZeroTolerance` validation failure
whose error text ("bad output") contains none of the recognized keywords
is recorded in the attempt history with an **empty** suggestions list. -/
theorem claim8_counterexample :
    ((execute (cfgR 1) (alwaysOutcome ztVR) zeroDur initLoop).2.history.map
        (fun r => r.suggestions)) = [[]] ∧
    (execute (cfgR 1) (alwaysOutcome ztVR) zeroDur initLoop).1.passed = false := by
  constructor
  · rfl
  · rfl
